import Mathlib

/-!
Verification of the seat-allocation core of the `formatura_backend`
repository: the venue layout model (`app/models/local.py`), the allocation
result model (`app/models/alocacao.py`), the demand model
(`app/models/formatura.py`) and the sequential allocation engine and
free-seat report (`app/routes/planilha_routes.py`).

Python integers are modelled as `Nat` (all quantities involved are
non-negative; where Python subtraction could go negative the translation
notes it and uses an equivalent `Nat` form), Python lists as `List`,
Python `set`/`dict` operations by explicit list operations with the same
membership semantics, and Python `raise ValidationError` as the `Except`
monad's `error` case.
-/

/-- One row of seats.  Translation of the `Fila` embedded document
(`local.py`): `nome` (string), `quantidade_assentos` (int), `ordem`
(optional int). -/
structure Fila where
  nome : String
  quantidade_assentos : Nat
  ordem : Option Nat
deriving Repr, DecidableEq

/-- The digits of a decimal numeral read as a number, most significant
first (what `int(match.group(1))` produces on the digit part). -/
def digitsToNat (ds : List Char) : Nat :=
  ds.foldl (fun acc c => acc * 10 + (c.toNat - 48)) 0

/-- Translation of the regex `^(\d+)([A-Z])$` used by
`Fila._calcular_ordem` (and, as `^[0-9]+[A-Z]$`, by `Fila.clean`): the
string matches exactly when it is one or more digits followed by a single
upper-case letter; on a match, return the numeric value of the digit part
and the letter. -/
def matchNumLetra (s : String) : Option (Nat × Char) :=
  let digits := s.data.takeWhile (fun c => c.isDigit)
  let resto := s.data.dropWhile (fun c => c.isDigit)
  match digits, resto with
  | [], _ => none
  | _, [c] => if 'A' ≤ c ∧ c ≤ 'Z' then some (digitsToNat digits, c) else none
  | _, _ => none

/-- Translation of `Fila._calcular_ordem` (`local.py` lines 36-43): on a
code made of a number and a letter, `(numero - 1) * 26 + letra_index`
where `letra_index = ord(letter) - ord('A') + 1`; `999` otherwise. -/
def calcularOrdem (nome : String) : Nat :=
  match matchNumLetra nome with
  | some (numero, letra) => (numero - 1) * 26 + (letra.toNat - 'A'.toNat + 1)
  | none => 999

/-- The sort key `f.ordem or f._calcular_ordem()` used by
`Local.filas_ordenadas` and `Local.save`: the stored order when it is
truthy (present and non-zero), the computed one otherwise. -/
def filaKey (f : Fila) : Nat :=
  match f.ordem with
  | some o => if o = 0 then calcularOrdem f.nome else o
  | none => calcularOrdem f.nome

/-- Translation of `Local.filas_ordenadas` (`local.py` lines 166-169):
`sorted(self.filas, key=lambda f: f.ordem or f._calcular_ordem())`.
Python's `sorted` is a stable sort; `List.insertionSort` is the stable
sort on the same key order. -/
def filasOrdenadas (filas : List Fila) : List Fila :=
  filas.insertionSort (fun a b => filaKey a ≤ filaKey b)

/-- Translation of `Local.total_assentos`: the sum of the rows'
capacities. -/
def totalAssentos (filas : List Fila) : Nat :=
  (filas.map (fun f => f.quantidade_assentos)).sum

/-- Python's `str.upper()` on the characters of the string. -/
def strUpper (s : String) : String :=
  ⟨s.data.map Char.toUpper⟩

/-- Python's `str.strip()`: leading and trailing whitespace removed. -/
def strStrip (s : String) : String :=
  ⟨((s.data.dropWhile Char.isWhitespace).reverse.dropWhile Char.isWhitespace).reverse⟩

def msgNomePadrao : String := "Nome da fila deve seguir o padrao numero+letra"

def msgQuantidadeAssentos : String := "Quantidade de assentos deve estar entre 1 e 100"

/-- Translation of `Fila.clean` (`local.py` lines 13-34).  The name is
normalised (`strip().upper()`); an error is recorded for the name when it
is truthy (non-empty) and fails the pattern, and for the capacity when it
is truthy (non-zero — `if self.quantidade_assentos and ...`) and outside
[1, 100]; on success the order is computed from the name when no truthy
order was given and the name is truthy. -/
def filaClean (f : Fila) : Except (List String) Fila :=
  let nome := strUpper (strStrip f.nome)
  let errosNome := if nome ≠ "" ∧ matchNumLetra nome = none then [msgNomePadrao] else []
  let errosQtd :=
    if f.quantidade_assentos ≠ 0 ∧
        (f.quantidade_assentos < 1 ∨ f.quantidade_assentos > 100) then
      [msgQuantidadeAssentos]
    else []
  match errosNome ++ errosQtd with
  | [] =>
    let ordem :=
      if (f.ordem = none ∨ f.ordem = some 0) ∧ nome ≠ "" then
        some (calcularOrdem nome)
      else f.ordem
    .ok { nome := nome, quantidade_assentos := f.quantidade_assentos, ordem := ordem }
  | erros => .error erros

def msgFilaDuplicada : String := "Ja existe uma fila com o nome"

/-- Translation of `Local.adicionar_fila` (`local.py` lines 113-129):
fail when a row with the same upper-cased name already exists; otherwise
build the row, run `Fila.clean` on it (propagating its validation
errors), and append it. -/
def adicionarFila (filas : List Fila) (nome : String) (quantidade_assentos : Nat)
    (ordem : Option Nat) : Except (List String) (List Fila) :=
  if filas.any (fun f => strUpper f.nome = strUpper nome) then
    .error [msgFilaDuplicada]
  else
    match filaClean { nome := nome, quantidade_assentos := quantidade_assentos, ordem := ordem } with
    | .error e => .error e
    | .ok fila => .ok (filas ++ [fila])

/-- One seat block: the allocation of one curso in one row.  Translation
of the `AlocacaoFila` embedded document (`alocacao.py`). -/
structure AlocacaoFila where
  curso_id : String
  fila_nome : String
  assentos : List Nat
deriving Repr, DecidableEq

/-- The seat-list normalisation done by `AlocacaoFila.clean`:
`sorted(list(set(self.assentos)))` — the distinct seats in ascending
order.  `List.dedup` keeps the distinct values and `List.insertionSort`
sorts them (Python's `sorted` is a sort on the same order). -/
def cleanAssentos (assentos : List Nat) : List Nat :=
  (assentos.dedup).insertionSort (fun a b => a ≤ b)

def msgAssentosVazia : String := "Lista de assentos nao pode estar vazia"

/-- Translation of `FormaturaCurso` (`formatura.py`): a curso taking part
in a formatura with its number of graduates. -/
structure FormaturaCurso where
  curso_id : String
  qtd_formandos : Nat
deriving Repr, DecidableEq

/-- Translation of `FormaturaCurso.qtd_assentos` (`formatura.py` lines
28-31): `self.qtd_formandos * 2` (graduate plus companion). -/
def FormaturaCurso.qtd_assentos (c : FormaturaCurso) : Nat :=
  c.qtd_formandos * 2

/-- Translation of `Formatura.total_assentos_necessarios`: the sum of the
cursos' seat requirements. -/
def totalAssentosNecessarios (cursos : List FormaturaCurso) : Nat :=
  (cursos.map (fun c => c.qtd_assentos)).sum

/-- The inner `while` loop of `_gerar_alocacao_sequencial`
(`planilha_routes.py` lines 69-86) run for one curso needing
`necessarios` seats, over the remaining rows `filas` with the cursor at
seat `assentoAtual` of the first remaining row.  Each iteration computes
`disponiveis = fila.quantidade_assentos - assento_atual + 1` (written
`+ 1 -` so that the `Nat` form agrees with the Python value, which is
never positive when the subtraction would truncate), takes
`min(necessarios, disponiveis)` seats, and appends the block through
`Alocacao.adicionar_alocacao_fila` (`alocacao.py` lines 117-130), which
raises when the seat list is empty and otherwise stores the block with
`AlocacaoFila.clean`'s normalised seat list; then it advances the cursor,
moving to the next row when the row is full.  Returns the blocks
appended, the remaining rows and the cursor. -/
def alocarCurso (curso_id : String) :
    Nat → List Fila → Nat → Except String (List AlocacaoFila × List Fila × Nat)
  | 0, filas, assentoAtual => .ok ([], filas, assentoAtual)
  | _ + 1, [], assentoAtual => .ok ([], [], assentoAtual)
  | necessarios + 1, fila :: resto, assentoAtual =>
    let disponiveis := fila.quantidade_assentos + 1 - assentoAtual
    let quantidade := min (necessarios + 1) disponiveis
    let assentosAlocados := List.range' assentoAtual quantidade
    if assentosAlocados = [] then .error msgAssentosVazia
    else
      let bloco : AlocacaoFila :=
        { curso_id := curso_id, fila_nome := fila.nome,
          assentos := cleanAssentos assentosAlocados }
      if assentoAtual + quantidade > fila.quantidade_assentos then
        match alocarCurso curso_id (necessarios + 1 - quantidade) resto 1 with
        | .ok (blocos, filasResto, atual) => .ok (bloco :: blocos, filasResto, atual)
        | .error e => .error e
      else
        match alocarCurso curso_id (necessarios + 1 - quantidade) (fila :: resto)
            (assentoAtual + quantidade) with
        | .ok (blocos, filasResto, atual) => .ok (bloco :: blocos, filasResto, atual)
        | .error e => .error e
termination_by n filas _ => (filas.length, n)
decreasing_by
  · exact Prod.Lex.left _ _ (by simp)
  · refine Prod.Lex.right _ ?_
    unfold quantidade disponiveis at *
    omega

/-- The `for curso_formatura in formatura.cursos` loop of
`_gerar_alocacao_sequencial` (`planilha_routes.py` lines 66-86), over
demands already reduced to (curso id, seat count) pairs: each curso in
order is seated by `alocarCurso` from the state the previous curso left,
and the blocks are concatenated in order of creation. -/
def gerarAlocacao :
    List (String × Nat) → List Fila → Nat → Except String (List AlocacaoFila)
  | [], _, _ => .ok []
  | (curso_id, necessarios) :: cursos, filas, assentoAtual =>
    match alocarCurso curso_id necessarios filas assentoAtual with
    | .error e => .error e
    | .ok (blocos, filasResto, atual) =>
      match gerarAlocacao cursos filasResto atual with
      | .error e => .error e
      | .ok blocosResto => .ok (blocos ++ blocosResto)

/-- Translation of `_gerar_alocacao_sequencial` (`planilha_routes.py`
lines 52-88): rows are taken in the order of `Local.filas_ordenadas`, the
cursor starts at seat 1 of the first row, and each curso demands
`qtd_assentos` seats. -/
def gerarAlocacaoSequencial (cursos : List FormaturaCurso) (filasLocal : List Fila) :
    Except String (List AlocacaoFila) :=
  gerarAlocacao (cursos.map (fun c => (c.curso_id, c.qtd_assentos)))
    (filasOrdenadas filasLocal) 1

/-- Translation of `Alocacao.total_assentos_alocados`: the summed sizes
of the blocks' seat lists. -/
def totalAssentosAlocados (blocos : List AlocacaoFila) : Nat :=
  (blocos.map (fun b => b.assentos.length)).sum

/-- Translation of `Alocacao.taxa_ocupacao` (`alocacao.py` lines
203-208): 0 when the venue has no seats, otherwise the allocated share of
the venue's capacity as a percentage.  Python computes in floating point;
every value the claims mention is exact, so the rational number is the
faithful value. -/
def taxaOcupacao (blocos : List AlocacaoFila) (filasLocal : List Fila) : ℚ :=
  if totalAssentos filasLocal = 0 then 0
  else (totalAssentosAlocados blocos : ℚ) / (totalAssentos filasLocal : ℚ) * 100

/-- All (row name, seat number) pairs reserved by a block list, with
multiplicity: the conflict-freedom invariant says this list has no
duplicate. -/
def blocosPairs (blocos : List AlocacaoFila) : List (String × Nat) :=
  blocos.flatMap (fun b => b.assentos.map (fun s => (b.fila_nome, s)))

/-- The (row name, seat number) pairs still unreserved from an engine
state: the rest of the current row from the cursor on, then the full
later rows. -/
def availList : List Fila → Nat → List (String × Nat)
  | [], _ => []
  | f :: resto, atual =>
    (List.range' atual (f.quantidade_assentos + 1 - atual)).map (fun s => (f.nome, s))
      ++ availList resto 1

/-- Row validity as guaranteed by the venue model (`Fila` capacities are
at least 1). -/
def FilasOK (filas : List Fila) : Prop :=
  ∀ f ∈ filas, 1 ≤ f.quantidade_assentos

/-- The engine's cursor invariant: the current seat is within the current
row (trivially true once the rows are exhausted). -/
def EstadoOK : List Fila → Nat → Prop
  | [], _ => True
  | f :: _, atual => 1 ≤ atual ∧ atual ≤ f.quantidade_assentos

/-- Translation of `Alocacao.get_assentos_ocupados_fila` (`alocacao.py`
lines 153-158): the seats of the blocks whose `fila_nome` matches
(`get_alocacoes_por_fila`), collected and then `sorted(list(set(...)))`. -/
def assentosOcupadosFila (alocs : List AlocacaoFila) (fila_nome : String) : List Nat :=
  cleanAssentos ((alocs.filter (fun a => a.fila_nome = fila_nome)).flatMap
    (fun a => a.assentos))

/-- The occupied-seat set built inline by `_calcular_assentos_vazios`
(`planilha_routes.py` lines 31-36): the union, over the blocks whose
`fila_nome` matches, of their seat lists.  Python accumulates into a
`set`; the concatenated list has the same membership. -/
def assentosOcupadosRota (alocs : List AlocacaoFila) (fila_nome : String) : List Nat :=
  (alocs.filter (fun a => a.fila_nome = fila_nome)).flatMap (fun a => a.assentos)

/-- The free seats of one row as computed by `_calcular_assentos_vazios`
(`planilha_routes.py` lines 38-40): `sorted(todos_assentos -
assentos_ocupados)` with `todos_assentos = set(range(1, capacity + 1))`.
The ascending filter of `[1..capacity]` is exactly that sorted set
difference, since `List.range'` is sorted and duplicate-free. -/
def assentosVaziosFila (alocs : List AlocacaoFila) (fila : Fila) : List Nat :=
  (List.range' 1 fila.quantidade_assentos).filter
    (fun s => decide (s ∉ assentosOcupadosRota alocs fila.nome))

/-- One entry of the free-seats report built by
`_calcular_assentos_vazios`. -/
structure AssentosVaziosInfo where
  fila : String
  assentos_vazios : List Nat
  total_vazios : Nat
deriving Repr, DecidableEq

/-- Translation of `_calcular_assentos_vazios` (`planilha_routes.py`
lines 15-49): for each row of `local.filas_ordenadas`, in order, compute
the free seats and — only when the list is non-empty (`if vazios:`) —
append an entry with the row name, the sorted free list and its count. -/
def calcularAssentosVazios (filasLocal : List Fila) (alocs : List AlocacaoFila) :
    List AssentosVaziosInfo :=
  (filasOrdenadas filasLocal).filterMap (fun fila =>
    let vazios := assentosVaziosFila alocs fila
    if vazios = [] then none
    else some { fila := fila.nome, assentos_vazios := vazios, total_vazios := vazios.length })

/-- The (key, value) pairs fed to the seat map of `Alocacao.clean`
(`alocacao.py` lines 101-112): for every block in order, for every seat in
order, the key of the seat and the block's curso.  Python keys the dict
with the string `f"{fila_nome}_{assento}"`; since the seat renders with
no underscore, that string determines and is determined by the (row name,
seat) pair, which is used as the key here. -/
def conflitosItems (alocs : List AlocacaoFila) : List ((String × Nat) × String) :=
  alocs.flatMap (fun a => a.assentos.map (fun s => ((a.fila_nome, s), a.curso_id)))

/-- Lookup in the seat map, most recent binding first (the model of
`chave in mapa_assentos` / `mapa_assentos[chave]` where updates are
prepended). -/
def mapaLookup : List ((String × Nat) × String) → String × Nat → Option String
  | [], _ => none
  | (k, v) :: resto, chave => if k = chave then some v else mapaLookup resto chave

def msgConflito (fila_nome : String) (assento : Nat) : String :=
  "Assento " ++ toString assento ++ " na fila " ++ fila_nome ++
    " esta alocado para multiplos cursos"

/-- The conflict-detection loop of `Alocacao.clean` (`alocacao.py` lines
102-112): walk the seat entries in order; when a key is already in the
map with a **different** curso (`mapa_assentos[chave] !=
alocacao.curso_id`), append a conflict message; in every case overwrite
the map entry with the current curso. -/
def conflitosFold :
    List ((String × Nat) × String) → List ((String × Nat) × String) → List String →
    List String
  | [], _, erros => erros
  | (chave, curso_id) :: resto, mapa, erros =>
    let erros' :=
      match mapaLookup mapa chave with
      | some c => if c ≠ curso_id then erros ++ [msgConflito chave.1 chave.2] else erros
      | none => erros
    conflitosFold resto ((chave, curso_id) :: mapa) erros'

/-- The conflict messages `Alocacao.clean` collects under
`errors['conflitos']`. -/
def alocacaoConflitos (alocs : List AlocacaoFila) : List String :=
  conflitosFold (conflitosItems alocs) [] []

def msgSemAlocacoes : String := "Deve haver pelo menos uma alocacao"

/-- Translation of `Alocacao.clean` (`alocacao.py` lines 89-115): an
error is recorded when the block list is empty, conflict messages are
collected by the seat-map walk, and the method raises exactly when some
error was recorded. -/
def alocacaoClean (alocs : List AlocacaoFila) : Except (List String) Unit :=
  let erros := (if alocs.isEmpty then [msgSemAlocacoes] else []) ++ alocacaoConflitos alocs
  if erros.isEmpty then .ok () else .error erros

theorem cleanAssentos_range' (a n : Nat) : cleanAssentos (List.range' a n) = List.range' a n := by
  unfold cleanAssentos
  rw [List.Nodup.dedup (List.nodup_range' a n)]
  exact List.Sorted.insertionSort_eq (List.pairwise_le_range' a n)

theorem blocosPairs_nil : blocosPairs [] = [] := rfl

theorem blocosPairs_cons (b : AlocacaoFila) (bs : List AlocacaoFila) :
    blocosPairs (b :: bs) = b.assentos.map (fun s => (b.fila_nome, s)) ++ blocosPairs bs := by
  simp [blocosPairs]

theorem blocosPairs_append (bs1 bs2 : List AlocacaoFila) :
    blocosPairs (bs1 ++ bs2) = blocosPairs bs1 ++ blocosPairs bs2 := by
  simp [blocosPairs]

theorem estadoOK_one (filas : List Fila) (hF : FilasOK filas) : EstadoOK filas 1 := by
  cases filas with
  | nil => trivial
  | cons f resto => exact ⟨le_refl 1, hF f (List.mem_cons_self f resto)⟩

theorem alocarCurso_spec (cid : String) (n : Nat) (filas : List Fila) (atual : Nat) :
    FilasOK filas → EstadoOK filas atual →
    ∃ blocos filasResto atualResto,
      alocarCurso cid n filas atual = .ok (blocos, filasResto, atualResto) ∧
      blocosPairs blocos ++ availList filasResto atualResto = availList filas atual ∧
      FilasOK filasResto ∧ EstadoOK filasResto atualResto ∧
      (blocosPairs blocos).length = min n (availList filas atual).length := by
  induction n, filas, atual using alocarCurso.induct cid with
  | case1 filas atual =>
    intro hF hS
    exact ⟨[], filas, atual, by simp [alocarCurso], by simp [blocosPairs], hF, hS,
      by simp [blocosPairs]⟩
  | case2 n atual =>
    intro hF hS
    exact ⟨[], [], atual, by simp [alocarCurso], by simp [blocosPairs], hF, trivial,
      by simp [blocosPairs, availList]⟩
  | case3 n fila resto atual disp quant seats hempty =>
    intro hF hS
    exfalso
    obtain ⟨h1, h2⟩ := hS
    rw [List.range'_eq_nil] at hempty
    unfold quant disp at hempty
    omega
  | case4 n fila resto atual disp quant seats hne hgt blocos filasResto atualResto hrec ih =>
    intro hF hS
    obtain ⟨h1, h2⟩ := hS
    have hFt : FilasOK resto := fun g hg => hF g (List.mem_cons_of_mem fila hg)
    obtain ⟨bs, fs, a, heq, hpairs, hFr, hSr, hlen⟩ := ih hFt (estadoOK_one resto hFt)
    rw [heq] at hrec
    injection hrec with hrec
    obtain ⟨rfl, rfl, rfl⟩ : bs = blocos ∧ fs = filasResto ∧ a = atualResto := by
      injection hrec with a b; injection b with b c; exact ⟨a, b, c⟩
    unfold seats at hne
    unfold quant at hne hgt heq hlen
    unfold disp at hne hgt heq hlen
    have hq : (n + 1) ⊓ (fila.quantidade_assentos + 1 - atual) =
        fila.quantidade_assentos + 1 - atual := by omega
    refine ⟨⟨cid, fila.nome,
        cleanAssentos (List.range' atual ((n + 1) ⊓ (fila.quantidade_assentos + 1 - atual)))⟩
        :: bs, fs, a, ?_, ?_, hFr, hSr, ?_⟩
    · simp only [alocarCurso]
      rw [if_neg hne, if_pos hgt, heq]
    · rw [blocosPairs_cons]
      simp only [cleanAssentos_range', hq]
      rw [List.append_assoc, hpairs]
      simp [availList]
    · rw [blocosPairs_cons, List.length_append, List.length_map, cleanAssentos_range',
        List.length_range']
      have hL : (availList (fila :: resto) atual).length =
          (fila.quantidade_assentos + 1 - atual) + (availList resto 1).length := by
        simp [availList]
      rw [hL]
      omega
  | case5 n fila resto atual disp quant seats hne hgt e hrec ih =>
    intro hF hS
    have hFt : FilasOK resto := fun g hg => hF g (List.mem_cons_of_mem fila hg)
    obtain ⟨bs, fs, a, heq, -⟩ := ih hFt (estadoOK_one resto hFt)
    rw [heq] at hrec
    exact absurd hrec (by simp)
  | case6 n fila resto atual disp quant seats hne hle blocos filasResto atualResto hrec ih =>
    intro hF hS
    obtain ⟨h1, h2⟩ := hS
    unfold seats at hne
    unfold quant at hne hle hrec
    unfold disp at hne hle hrec
    have hq : (n + 1) ⊓ (fila.quantidade_assentos + 1 - atual) = n + 1 := by omega
    rw [hq, Nat.sub_self] at hrec
    rw [show alocarCurso cid 0 (fila :: resto) (atual + (n + 1)) =
        .ok ([], fila :: resto, atual + (n + 1)) from by simp [alocarCurso]] at hrec
    obtain ⟨rfl, rfl, rfl⟩ : [] = blocos ∧ fila :: resto = filasResto ∧ atual + (n + 1) = atualResto := by
      injection hrec with a; injection a with a b; injection b with b c; exact ⟨a, b, c⟩
    refine ⟨[⟨cid, fila.nome,
        cleanAssentos (List.range' atual ((n + 1) ⊓ (fila.quantidade_assentos + 1 - atual)))⟩],
        fila :: resto, atual + (n + 1), ?_, ?_, hF, ⟨by omega, by omega⟩, ?_⟩
    · simp only [alocarCurso]
      rw [if_neg hne, if_neg hle, hq, Nat.sub_self]
      rw [show alocarCurso cid 0 (fila :: resto) (atual + (n + 1)) =
          .ok ([], fila :: resto, atual + (n + 1)) from by simp [alocarCurso]]
    · rw [blocosPairs_cons, blocosPairs_nil, List.append_nil]
      simp only [cleanAssentos_range', hq]
      show _ = availList (fila :: resto) atual
      simp only [availList]
      rw [← List.append_assoc, ← List.map_append, List.range'_append_1]
      have he : (fila.quantidade_assentos + 1 - (atual + (n + 1))) + (n + 1) =
          fila.quantidade_assentos + 1 - atual := by omega
      rw [he]
    · rw [blocosPairs_cons, blocosPairs_nil, List.append_nil, List.length_map,
        cleanAssentos_range', List.length_range', hq]
      have hL : (availList (fila :: resto) atual).length =
          (fila.quantidade_assentos + 1 - atual) + (availList resto 1).length := by
        simp [availList]
      rw [hL]
      omega
  | case7 n fila resto atual disp quant seats hne hle e hrec ih =>
    intro hF hS
    obtain ⟨h1, h2⟩ := hS
    have hS2 : EstadoOK (fila :: resto) (atual + quant) := by
      refine ⟨by omega, ?_⟩
      unfold quant disp at hle ⊢
      omega
    obtain ⟨bs, fs, a, heq, -⟩ := ih hF hS2
    rw [heq] at hrec
    exact absurd hrec (by simp)

theorem gerarAlocacao_spec (cursos : List (String × Nat)) :
    ∀ (filas : List Fila) (atual : Nat), FilasOK filas → EstadoOK filas atual →
    ∃ blocos filasResto atualResto,
      gerarAlocacao cursos filas atual = .ok blocos ∧
      blocosPairs blocos ++ availList filasResto atualResto = availList filas atual ∧
      FilasOK filasResto ∧ EstadoOK filasResto atualResto ∧
      (blocosPairs blocos).length =
        min ((cursos.map Prod.snd).sum) (availList filas atual).length := by
  induction cursos with
  | nil =>
    intro filas atual hF hS
    exact ⟨[], filas, atual, by simp [gerarAlocacao], by simp [blocosPairs], hF, hS,
      by simp [blocosPairs]⟩
  | cons c cursos ih =>
    intro filas atual hF hS
    obtain ⟨cid, necessarios⟩ := c
    obtain ⟨bs1, fs1, a1, h1, hp1, hF1, hS1, hl1⟩ :=
      alocarCurso_spec cid necessarios filas atual hF hS
    obtain ⟨bs2, fs2, a2, h2, hp2, hF2, hS2, hl2⟩ := ih fs1 a1 hF1 hS1
    refine ⟨bs1 ++ bs2, fs2, a2, ?_, ?_, hF2, hS2, ?_⟩
    · simp only [gerarAlocacao, h1, h2]
    · rw [blocosPairs_append, List.append_assoc, hp2, hp1]
    · rw [blocosPairs_append, List.length_append, hl1, hl2]
      have e := congrArg List.length hp1
      rw [List.length_append] at e
      simp only [List.map_cons, List.sum_cons]
      omega

theorem availList_length_one (filas : List Fila) :
    (availList filas 1).length = totalAssentos filas := by
  induction filas with
  | nil => simp [availList, totalAssentos]
  | cons f resto ih =>
    simp only [availList, List.length_append, List.length_map, List.length_range', ih,
      totalAssentos, List.map_cons, List.sum_cons]
    omega

theorem availList_fst_mem (filas : List Fila) (atual : Nat) (p : String × Nat)
    (hp : p ∈ availList filas atual) : p.1 ∈ filas.map Fila.nome := by
  induction filas generalizing atual with
  | nil => simp [availList] at hp
  | cons f resto ih =>
    simp only [availList, List.mem_append, List.mem_map] at hp
    rcases hp with ⟨s, _, rfl⟩ | hp
    · simp
    · simp only [List.map_cons, List.mem_cons]
      exact Or.inr (ih 1 hp)

theorem availList_nodup (filas : List Fila) (hnomes : (filas.map Fila.nome).Nodup)
    (atual : Nat) : (availList filas atual).Nodup := by
  induction filas generalizing atual with
  | nil => simp [availList]
  | cons f resto ih =>
    simp only [List.map_cons, List.nodup_cons] at hnomes
    refine List.Nodup.append ?_ (ih hnomes.2 1) ?_
    · exact (List.nodup_range' atual _).map (fun a b h => by
        simpa using congrArg Prod.snd h)
    · intro p hp1 hp2
      have h1 : p.1 = f.nome := by
        rcases List.mem_map.mp hp1 with ⟨s, _, rfl⟩; rfl
      have h2 := availList_fst_mem resto 1 p hp2
      rw [h1] at h2
      exact hnomes.1 h2

theorem availList_mem_bounds (filas : List Fila) (atual : Nat) (h1 : 1 ≤ atual)
    (p : String × Nat) (hp : p ∈ availList filas atual) :
    ∃ f ∈ filas, p.1 = f.nome ∧ 1 ≤ p.2 ∧ p.2 ≤ f.quantidade_assentos := by
  induction filas generalizing atual with
  | nil => simp [availList] at hp
  | cons f resto ih =>
    simp only [availList, List.mem_append, List.mem_map] at hp
    rcases hp with ⟨s, hs, rfl⟩ | hp
    · rw [List.mem_range'_1] at hs
      exact ⟨f, List.mem_cons_self f resto, rfl, by omega, by omega⟩
    · obtain ⟨g, hg, hgs⟩ := ih 1 (le_refl 1) hp
      exact ⟨g, List.mem_cons_of_mem f hg, hgs⟩

theorem length_blocosPairs (bs : List AlocacaoFila) :
    (blocosPairs bs).length = totalAssentosAlocados bs := by
  induction bs with
  | nil => rfl
  | cons b bs ih =>
    simp only [blocosPairs_cons, List.length_append, List.length_map, ih,
      totalAssentosAlocados, List.map_cons, List.sum_cons]

theorem mem_cleanAssentos (s : Nat) (l : List Nat) : s ∈ cleanAssentos l ↔ s ∈ l := by
  unfold cleanAssentos
  rw [List.mem_insertionSort, List.mem_dedup]

theorem mem_blocosPairs (bs : List AlocacaoFila) (nome : String) (s : Nat) :
    (nome, s) ∈ blocosPairs bs ↔ ∃ b ∈ bs, b.fila_nome = nome ∧ s ∈ b.assentos := by
  simp only [blocosPairs, List.mem_flatMap, List.mem_map, Prod.mk.injEq]
  constructor
  · rintro ⟨b, hb, s', hs', rfl, rfl⟩
    exact ⟨b, hb, rfl, hs'⟩
  · rintro ⟨b, hb, rfl, hs⟩
    exact ⟨b, hb, s, hs, rfl, rfl⟩

theorem conflitosFold_prefix (items : List ((String × Nat) × String)) :
    ∀ (mapa : List ((String × Nat) × String)) (erros : List String),
    ∃ t, conflitosFold items mapa erros = erros ++ t := by
  induction items with
  | nil => intro mapa erros; exact ⟨[], by simp [conflitosFold]⟩
  | cons it resto ih =>
    intro mapa erros
    obtain ⟨chave, cid⟩ := it
    simp only [conflitosFold]
    cases hL : mapaLookup mapa chave with
    | none => simpa using ih ((chave, cid) :: mapa) erros
    | some c =>
      simp only
      by_cases hc : c ≠ cid
      · rw [if_pos hc]
        obtain ⟨t, ht⟩ := ih ((chave, cid) :: mapa) (erros ++ [msgConflito chave.1 chave.2])
        exact ⟨[msgConflito chave.1 chave.2] ++ t, by rw [ht, List.append_assoc]⟩
      · rw [if_neg hc]
        exact ih ((chave, cid) :: mapa) erros

theorem conflitosFold_of_lookup (items : List ((String × Nat) × String)) :
    ∀ (mapa : List ((String × Nat) × String)) (erros : List String)
      (chave : String × Nat) (c c' : String),
    mapaLookup mapa chave = some c → (chave, c') ∈ items → c' ≠ c →
    conflitosFold items mapa erros ≠ [] := by
  induction items with
  | nil => intro _ _ _ _ _ _ hmem _; simp at hmem
  | cons it resto ih =>
    intro mapa erros chave c c' hL hmem hne
    obtain ⟨k, d⟩ := it
    simp only [conflitosFold]
    rcases List.mem_cons.mp hmem with hhead | htail
    · rw [Prod.mk.injEq] at hhead
      obtain ⟨rfl, rfl⟩ := hhead
      simp only [hL]
      rw [if_pos (Ne.symm hne)]
      obtain ⟨t, ht⟩ := conflitosFold_prefix resto ((chave, c') :: mapa)
        (erros ++ [msgConflito chave.1 chave.2])
      rw [ht]
      simp
    · by_cases hk : k = chave
      · subst hk
        have hL'' : mapaLookup ((k, d) :: mapa) k = some d := by simp [mapaLookup]
        by_cases hcd : c' = d
        · subst hcd
          simp only [hL]
          rw [if_pos (Ne.symm hne)]
          obtain ⟨t, ht⟩ := conflitosFold_prefix resto ((k, c') :: mapa)
            (erros ++ [msgConflito k.1 k.2])
          rw [ht]
          simp
        · exact ih ((k, d) :: mapa) _ k d c' hL'' htail hcd
      · have hL' : mapaLookup ((k, d) :: mapa) chave = some c := by
          simp [mapaLookup, hk, hL]
        exact ih ((k, d) :: mapa) _ chave c c' hL' htail hne

theorem conflitosFold_conflict (items : List ((String × Nat) × String)) :
    ∀ (mapa : List ((String × Nat) × String)) (erros : List String)
      (chave : String × Nat) (c1 c2 : String),
    (chave, c1) ∈ items → (chave, c2) ∈ items → c1 ≠ c2 →
    conflitosFold items mapa erros ≠ [] := by
  induction items with
  | nil => intro _ _ _ _ _ hmem _ _; simp at hmem
  | cons it resto ih =>
    intro mapa erros chave c1 c2 h1 h2 hne
    obtain ⟨k, d⟩ := it
    rcases List.mem_cons.mp h1 with hh1 | ht1
    · rw [Prod.mk.injEq] at hh1
      obtain ⟨rfl, rfl⟩ := hh1
      have ht2 : (chave, c2) ∈ resto := by
        rcases List.mem_cons.mp h2 with hh2 | ht2
        · rw [Prod.mk.injEq] at hh2
          exact absurd hh2.2.symm hne
        · exact ht2
      simp only [conflitosFold]
      exact conflitosFold_of_lookup resto ((chave, c1) :: mapa) _ chave c1 c2
        (by simp [mapaLookup]) ht2 (Ne.symm hne)
    · rcases List.mem_cons.mp h2 with hh2 | ht2
      · rw [Prod.mk.injEq] at hh2
        obtain ⟨rfl, rfl⟩ := hh2
        simp only [conflitosFold]
        exact conflitosFold_of_lookup resto ((chave, c2) :: mapa) _ chave c2 c1
          (by simp [mapaLookup]) ht1 hne
      · simp only [conflitosFold]
        exact ih ((k, d) :: mapa) _ chave c1 c2 ht1 ht2 hne

theorem totalAssentosNecessarios_two_mul (cursos : List FormaturaCurso) :
    totalAssentosNecessarios cursos = 2 * (cursos.map (fun c => c.qtd_formandos)).sum := by
  induction cursos with
  | nil => rfl
  | cons c resto ih =>
    simp only [totalAssentosNecessarios, List.map_cons, List.sum_cons,
      FormaturaCurso.qtd_assentos] at ih ⊢
    omega

/-- C1: on a venue with at least one row (validated rows: positive
capacities, distinct names) and demands with distinct curso ids, positive
counts and total at most the venue capacity, `_gerar_alocacao_sequencial`
succeeds, allocates exactly the demanded number of seats, and books no
(row, seat) pair twice. -/
theorem claim1_aloca_tudo_sem_conflito (cursos : List (String × Nat)) (filas : List Fila)
    (hne : filas ≠ []) (hF : FilasOK filas) (hnomes : (filas.map Fila.nome).Nodup)
    (hcursos : (cursos.map Prod.fst).Nodup) (hpos : ∀ c ∈ cursos, 0 < c.2)
    (hcap : (cursos.map Prod.snd).sum ≤ totalAssentos filas) :
    ∃ blocos, gerarAlocacao cursos filas 1 = .ok blocos ∧
      totalAssentosAlocados blocos = (cursos.map Prod.snd).sum ∧
      (blocosPairs blocos).Nodup := by
  obtain ⟨bs, fs, a, hok, hp, _, _, hl⟩ :=
    gerarAlocacao_spec cursos filas 1 hF (estadoOK_one filas hF)
  refine ⟨bs, hok, ?_, ?_⟩
  · rw [← length_blocosPairs, hl, availList_length_one]
    exact min_eq_left hcap
  · have hnd : (availList filas 1).Nodup := availList_nodup filas hnomes 1
    rw [← hp] at hnd
    exact List.Nodup.of_append_left hnd

theorem claim1_witness : ∃ blocos,
    gerarAlocacao [("MED", 4), ("LAW", 4)]
      [⟨"1A", 5, none⟩, ⟨"1B", 3, none⟩] 1 = .ok blocos ∧
    totalAssentosAlocados blocos = ([("MED", 4), ("LAW", 4)].map Prod.snd).sum ∧
    (blocosPairs blocos).Nodup :=
  claim1_aloca_tudo_sem_conflito [("MED", 4), ("LAW", 4)]
    [⟨"1A", 5, none⟩, ⟨"1B", 3, none⟩]
    (by decide) (by unfold FilasOK; decide) (by decide) (by decide) (by decide) (by decide)

/-- C2 counterexample: with a single row of 2 seats and a demand of 4
seats (rows exhausted mid-demand), the engine does not fail: it returns a
partial allocation of 2 of the 4 requested seats. -/
theorem claim2_counterexample :
    gerarAlocacao [("X", 4)] [⟨"1A", 2, none⟩] 1 = .ok [⟨"X", "1A", [1, 2]⟩] ∧
    totalAssentosAlocados [(⟨"X", "1A", [1, 2]⟩ : AlocacaoFila)] = 2 ∧
    totalAssentos [(⟨"1A", 2, none⟩ : Fila)] < 4 := by
  refine ⟨?_, by decide, by decide⟩
  simp [gerarAlocacao, alocarCurso, cleanAssentos, List.range', List.insertionSort,
    List.orderedInsert]

/-- C2 amended: on validated rows the engine never raises; it returns an
allocation of exactly `min(total demand, total capacity)` seats — a
silent partial allocation whenever the demand exceeds the capacity. -/
theorem claim2_amended_parcial (cursos : List (String × Nat)) (filas : List Fila)
    (hF : FilasOK filas) :
    ∃ blocos, gerarAlocacao cursos filas 1 = .ok blocos ∧
      totalAssentosAlocados blocos = min ((cursos.map Prod.snd).sum) (totalAssentos filas) := by
  obtain ⟨bs, fs, a, hok, hp, _, _, hl⟩ :=
    gerarAlocacao_spec cursos filas 1 hF (estadoOK_one filas hF)
  rw [availList_length_one] at hl
  exact ⟨bs, hok, by rw [← length_blocosPairs, hl]⟩

theorem claim2_amended_witness : ∃ blocos,
    gerarAlocacao [("X", 4)] [⟨"1A", 2, none⟩] 1 = .ok blocos ∧
    totalAssentosAlocados blocos =
      min (([("X", 4)].map Prod.snd).sum) (totalAssentos [⟨"1A", 2, none⟩]) :=
  claim2_amended_parcial [("X", 4)] [⟨"1A", 2, none⟩] (by unfold FilasOK; decide)

/-- C4: for a row code made of number part and letter part the computed
ordering key is `(numero - 1) * 26 + (letra - 'A' + 1)`; in particular
"10B" gives 236, "1A" gives 1, and the canonical order puts "1A" before
"10B". -/
theorem claim4_chave_ordenacao :
    (∀ (nome : String) (numero : Nat) (letra : Char),
      matchNumLetra nome = some (numero, letra) →
      calcularOrdem nome = (numero - 1) * 26 + (letra.toNat - 'A'.toNat + 1)) ∧
    calcularOrdem "10B" = 236 ∧ calcularOrdem "1A" = 1 ∧
    filasOrdenadas [⟨"10B", 3, none⟩, ⟨"1A", 5, none⟩] =
      [⟨"1A", 5, none⟩, ⟨"10B", 3, none⟩] := by
  refine ⟨?_, by decide, by decide, by decide⟩
  intro nome numero letra h
  unfold calcularOrdem
  rw [h]

theorem claim4_witness : calcularOrdem "3C" = (3 - 1) * 26 + ('C'.toNat - 'A'.toNat + 1) :=
  claim4_chave_ordenacao.1 "3C" 3 'C' (by decide)

/-- C5: `adicionar_fila` does reject a duplicate name (case-insensitive)
and a capacity above 100, but a capacity of 0 slips through the truthiness
guard `if self.quantidade_assentos and ...` of `Fila.clean` and the row is
appended — contradicting the field's own `min_value=1` declaration and the
error message's stated range 1..100. -/
theorem claim5_capacidade_zero_aceita :
    adicionarFila [] "1A" 0 none =
      .ok [{ nome := "1A", quantidade_assentos := 0, ordem := some 1 }] ∧
    adicionarFila [] "1A" 101 none = .error [msgQuantidadeAssentos] ∧
    adicionarFila [{ nome := "1A", quantidade_assentos := 5, ordem := some 1 }] "1a" 10 none =
      .error [msgFilaDuplicada] :=
  ⟨rfl, rfl, rfl⟩

/-- C6: the worked example — rows 1A (5 seats) and 1B (3 seats), demands
MED 4 and LAW 4 — produces exactly the blocks MED 1A 1-4, LAW 1A 5,
LAW 1B 1-3, allocating all 8 seats for an occupancy rate of 100. -/
theorem claim6_exemplo :
    gerarAlocacao [("MED", 4), ("LAW", 4)] [⟨"1A", 5, none⟩, ⟨"1B", 3, none⟩] 1 =
      .ok [⟨"MED", "1A", [1, 2, 3, 4]⟩, ⟨"LAW", "1A", [5]⟩, ⟨"LAW", "1B", [1, 2, 3]⟩] ∧
    totalAssentosAlocados
      [⟨"MED", "1A", [1, 2, 3, 4]⟩, ⟨"LAW", "1A", [5]⟩, ⟨"LAW", "1B", [1, 2, 3]⟩] = 8 ∧
    taxaOcupacao [⟨"MED", "1A", [1, 2, 3, 4]⟩, ⟨"LAW", "1A", [5]⟩, ⟨"LAW", "1B", [1, 2, 3]⟩]
      [⟨"1A", 5, none⟩, ⟨"1B", 3, none⟩] = 100 := by
  refine ⟨?_, by decide, ?_⟩
  · simp [gerarAlocacao, alocarCurso, cleanAssentos, List.range', List.insertionSort,
      List.orderedInsert]
  · norm_num [taxaOcupacao, totalAssentos, totalAssentosAlocados]

/-- C8: the engine is deterministic — two invocations on equal inputs
return equal block sequences. -/
theorem claim8_determinismo (cursos1 cursos2 : List FormaturaCurso)
    (filas1 filas2 : List Fila) (hc : cursos1 = cursos2) (hf : filas1 = filas2) :
    gerarAlocacaoSequencial cursos1 filas1 = gerarAlocacaoSequencial cursos2 filas2 := by
  rw [hc, hf]

theorem claim8_witness :
    gerarAlocacaoSequencial [⟨"MED", 2⟩] [⟨"1A", 5, none⟩] =
      gerarAlocacaoSequencial [⟨"MED", 2⟩] [⟨"1A", 5, none⟩] :=
  claim8_determinismo [⟨"MED", 2⟩] [⟨"MED", 2⟩] [⟨"1A", 5, none⟩] [⟨"1A", 5, none⟩] rfl rfl

/-- C10: each curso demands `qtd_formandos * 2` seats, so every demand is
even, and — under the capacity check the route performs before invoking
the engine — the total number of seats the engine allocates for a
formatura is even. -/
theorem claim10_assentos_pares (cursos : List FormaturaCurso) (filasLocal : List Fila)
    (hF : FilasOK filasLocal)
    (hcap : totalAssentosNecessarios cursos ≤ totalAssentos filasLocal) :
    (∀ c : FormaturaCurso, c.qtd_assentos = 2 * c.qtd_formandos) ∧
    (∀ c ∈ cursos, Even c.qtd_assentos) ∧
    ∃ blocos, gerarAlocacaoSequencial cursos filasLocal = .ok blocos ∧
      totalAssentosAlocados blocos = totalAssentosNecessarios cursos ∧
      Even (totalAssentosAlocados blocos) := by
  have hperm : List.Perm (filasOrdenadas filasLocal) filasLocal := List.perm_insertionSort _ _
  have hF' : FilasOK (filasOrdenadas filasLocal) := fun f hf => hF f (hperm.mem_iff.mp hf)
  have htot : totalAssentos (filasOrdenadas filasLocal) = totalAssentos filasLocal := by
    unfold totalAssentos
    exact (hperm.map (fun f => f.quantidade_assentos)).sum_eq
  obtain ⟨bs, fs, a, hok, hp, _, _, hl⟩ :=
    gerarAlocacao_spec (cursos.map (fun c => (c.curso_id, c.qtd_assentos)))
      (filasOrdenadas filasLocal) 1 hF' (estadoOK_one _ hF')
  rw [availList_length_one, htot] at hl
  have hsum : ((cursos.map (fun c => (c.curso_id, c.qtd_assentos))).map Prod.snd).sum =
      totalAssentosNecessarios cursos := by
    unfold totalAssentosNecessarios
    rw [List.map_map]
    rfl
  rw [hsum] at hl
  have htotal : totalAssentosAlocados bs = totalAssentosNecessarios cursos := by
    rw [← length_blocosPairs, hl]
    exact min_eq_left hcap
  refine ⟨fun c => by unfold FormaturaCurso.qtd_assentos; omega,
    fun c hc => ⟨c.qtd_formandos, by unfold FormaturaCurso.qtd_assentos; omega⟩,
    bs, hok, htotal, ?_⟩
  rw [htotal, totalAssentosNecessarios_two_mul]
  exact ⟨(cursos.map (fun c => c.qtd_formandos)).sum, by omega⟩

theorem claim10_witness :
    (∀ c : FormaturaCurso, c.qtd_assentos = 2 * c.qtd_formandos) ∧
    (∀ c ∈ [(⟨"MED", 2⟩ : FormaturaCurso)], Even c.qtd_assentos) ∧
    ∃ blocos, gerarAlocacaoSequencial [⟨"MED", 2⟩] [⟨"1A", 5, none⟩] = .ok blocos ∧
      totalAssentosAlocados blocos = totalAssentosNecessarios [⟨"MED", 2⟩] ∧
      Even (totalAssentosAlocados blocos) :=
  claim10_assentos_pares [⟨"MED", 2⟩] [⟨"1A", 5, none⟩] (by unfold FilasOK; decide) (by decide)

theorem mem_assentosOcupadosRota (alocs : List AlocacaoFila) (nome : String) (s : Nat) :
    s ∈ assentosOcupadosRota alocs nome ↔ (nome, s) ∈ blocosPairs alocs := by
  rw [mem_blocosPairs]
  simp only [assentosOcupadosRota, List.mem_flatMap, List.mem_filter, decide_eq_true_eq]
  constructor
  · rintro ⟨a, ⟨ha, hn⟩, hs⟩
    exact ⟨a, ha, hn, hs⟩
  · rintro ⟨a, ha, hn, hs⟩
    exact ⟨a, ⟨ha, hn⟩, hs⟩

theorem mem_assentosOcupadosFila (alocs : List AlocacaoFila) (nome : String) (s : Nat) :
    s ∈ assentosOcupadosFila alocs nome ↔ (nome, s) ∈ blocosPairs alocs := by
  unfold assentosOcupadosFila
  rw [mem_cleanAssentos]
  exact mem_assentosOcupadosRota alocs nome s

/-- C3 counterexample: an allocation whose two blocks give the same seat
of the same row to the same curso passes `Alocacao.clean` without any
error — the duplicate-seat check only fires when the cursos differ. -/
theorem claim3_counterexample :
    alocacaoClean [⟨"C", "1A", [1]⟩, ⟨"C", "1A", [1]⟩] = .ok () := rfl

/-- C3 amended: `Alocacao.clean` raises whenever some (row, seat) pair is
claimed by two blocks of **different** cursos; a pair duplicated between
blocks of the same curso is accepted (see the counterexample). -/
theorem claim3_amended_conflito_entre_cursos (alocs : List AlocacaoFila)
    (h : ∃ a1 ∈ alocs, ∃ a2 ∈ alocs, ∃ s ∈ a1.assentos,
      s ∈ a2.assentos ∧ a1.fila_nome = a2.fila_nome ∧ a1.curso_id ≠ a2.curso_id) :
    ∃ erros, alocacaoClean alocs = .error erros := by
  obtain ⟨a1, h1, a2, h2, s, hs1, hs2, hfn, hcid⟩ := h
  have m1 : ((a1.fila_nome, s), a1.curso_id) ∈ conflitosItems alocs := by
    simp only [conflitosItems, List.mem_flatMap, List.mem_map]
    exact ⟨a1, h1, s, hs1, rfl⟩
  have m2 : ((a1.fila_nome, s), a2.curso_id) ∈ conflitosItems alocs := by
    simp only [conflitosItems, List.mem_flatMap, List.mem_map]
    exact ⟨a2, h2, s, hs2, by rw [hfn]⟩
  have hC : alocacaoConflitos alocs ≠ [] :=
    conflitosFold_conflict (conflitosItems alocs) [] [] (a1.fila_nome, s)
      a1.curso_id a2.curso_id m1 m2 hcid
  have hne : ((if alocs.isEmpty then [msgSemAlocacoes] else []) ++ alocacaoConflitos alocs) ≠ [] := by
    intro hnil
    exact hC (List.append_eq_nil.mp hnil).2
  refine ⟨(if alocs.isEmpty then [msgSemAlocacoes] else []) ++ alocacaoConflitos alocs, ?_⟩
  unfold alocacaoClean
  rw [if_neg (by simpa [List.isEmpty_iff] using hne)]

theorem claim3_witness : ∃ erros,
    alocacaoClean [⟨"MED", "1A", [1]⟩, ⟨"LAW", "1A", [1]⟩] = .error erros :=
  claim3_amended_conflito_entre_cursos [⟨"MED", "1A", [1]⟩, ⟨"LAW", "1A", [1]⟩] (by decide)

/-- C7: for every row of the venue and every allocation the engine
produces from it, the occupied-seat set of the row and the free-seat set
computed for it are disjoint and together are exactly the seats 1 to
capacity. -/
theorem claim7_ocupados_vazios_particao (cursos : List (String × Nat)) (filas : List Fila)
    (hF : FilasOK filas) (hnomes : (filas.map Fila.nome).Nodup)
    (blocos : List AlocacaoFila) (hok : gerarAlocacao cursos filas 1 = .ok blocos)
    (f : Fila) (hf : f ∈ filas) (s : Nat) :
    ¬(s ∈ assentosOcupadosFila blocos f.nome ∧ s ∈ assentosVaziosFila blocos f) ∧
    ((s ∈ assentosOcupadosFila blocos f.nome ∨ s ∈ assentosVaziosFila blocos f) ↔
      1 ≤ s ∧ s ≤ f.quantidade_assentos) := by
  obtain ⟨bs, fs, a, hok', hp, -, -, -⟩ :=
    gerarAlocacao_spec cursos filas 1 hF (estadoOK_one filas hF)
  rw [hok] at hok'
  injection hok' with hbs
  subst hbs
  have hocc : ∀ s', s' ∈ assentosOcupadosFila blocos f.nome →
      1 ≤ s' ∧ s' ≤ f.quantidade_assentos := by
    intro s' hs'
    rw [mem_assentosOcupadosFila] at hs'
    have hin : (f.nome, s') ∈ availList filas 1 := by
      rw [← hp]
      exact List.mem_append.mpr (Or.inl hs')
    obtain ⟨g, hg, hgn, hb1, hb2⟩ := availList_mem_bounds filas 1 (le_refl 1) _ hin
    have hfg : f = g := List.inj_on_of_nodup_map hnomes hf hg hgn
    rw [hfg]
    exact ⟨hb1, hb2⟩
  have hvaz : ∀ s', s' ∈ assentosVaziosFila blocos f ↔
      (1 ≤ s' ∧ s' ≤ f.quantidade_assentos ∧
        s' ∉ assentosOcupadosFila blocos f.nome) := by
    intro s'
    unfold assentosVaziosFila
    rw [List.mem_filter, List.mem_range'_1]
    rw [mem_assentosOcupadosFila]
    simp only [decide_eq_true_eq, mem_assentosOcupadosRota]
    constructor
    · rintro ⟨⟨hb1, hb2⟩, hnm⟩
      exact ⟨hb1, by omega, hnm⟩
    · rintro ⟨hb1, hb2, hnm⟩
      exact ⟨⟨hb1, by omega⟩, hnm⟩
  constructor
  · rintro ⟨ho, hv⟩
    exact ((hvaz s).mp hv).2.2 ho
  · constructor
    · rintro (ho | hv)
      · exact hocc s ho
      · have := (hvaz s).mp hv
        exact ⟨this.1, this.2.1⟩
    · intro hb
      by_cases ho : s ∈ assentosOcupadosFila blocos f.nome
      · exact Or.inl ho
      · exact Or.inr ((hvaz s).mpr ⟨hb.1, hb.2, ho⟩)

theorem claim7_witness :
    ¬((3 : Nat) ∈ assentosOcupadosFila [⟨"MED", "1A", [1, 2, 3, 4]⟩] "1A" ∧
      (3 : Nat) ∈ assentosVaziosFila [⟨"MED", "1A", [1, 2, 3, 4]⟩] ⟨"1A", 5, none⟩) ∧
    (((3 : Nat) ∈ assentosOcupadosFila [⟨"MED", "1A", [1, 2, 3, 4]⟩] "1A" ∨
      (3 : Nat) ∈ assentosVaziosFila [⟨"MED", "1A", [1, 2, 3, 4]⟩] ⟨"1A", 5, none⟩) ↔
      1 ≤ 3 ∧ 3 ≤ 5) :=
  claim7_ocupados_vazios_particao [("MED", 4)] [⟨"1A", 5, none⟩]
    (by unfold FilasOK; decide) (by decide) [⟨"MED", "1A", [1, 2, 3, 4]⟩]
    (by simp [gerarAlocacao, alocarCurso, cleanAssentos, List.range', List.insertionSort,
      List.orderedInsert])
    ⟨"1A", 5, none⟩ (by decide) 3

/-- C9 counterexample: a venue whose single row is fully occupied gets an
empty report — the fully occupied row does not appear at all, instead of
appearing with an empty list and count 0. -/
theorem claim9_counterexample :
    calcularAssentosVazios [⟨"1A", 2, none⟩] [⟨"X", "1A", [1, 2]⟩] = [] := rfl

/-- C9 amended: the free-seats report has an entry exactly for each row
with at least one free seat (rows with zero free seats are omitted by the
`if vazios:` guard); each entry carries the row's name, the ascending
list of its free seats — the seats 1..capacity not occupied in that row —
and the count of that list. -/
theorem claim9_amended_somente_filas_com_vazios (filasLocal : List Fila)
    (alocs : List AlocacaoFila) :
    (∀ f ∈ filasOrdenadas filasLocal, assentosVaziosFila alocs f ≠ [] →
      ({ fila := f.nome, assentos_vazios := assentosVaziosFila alocs f,
         total_vazios := (assentosVaziosFila alocs f).length } : AssentosVaziosInfo) ∈
        calcularAssentosVazios filasLocal alocs) ∧
    (∀ e ∈ calcularAssentosVazios filasLocal alocs,
      e.assentos_vazios ≠ [] ∧ e.total_vazios = e.assentos_vazios.length ∧
      ∃ f ∈ filasOrdenadas filasLocal, e.fila = f.nome ∧
        e.assentos_vazios = assentosVaziosFila alocs f ∧
        ∀ s, s ∈ e.assentos_vazios ↔
          (1 ≤ s ∧ s ≤ f.quantidade_assentos ∧ s ∉ assentosOcupadosRota alocs f.nome)) := by
  have hmemvaz : ∀ (f : Fila) (s : Nat), s ∈ assentosVaziosFila alocs f ↔
      (1 ≤ s ∧ s ≤ f.quantidade_assentos ∧ s ∉ assentosOcupadosRota alocs f.nome) := by
    intro f s
    unfold assentosVaziosFila
    rw [List.mem_filter, List.mem_range'_1]
    simp only [decide_eq_true_eq]
    constructor
    · rintro ⟨⟨hb1, hb2⟩, hnm⟩
      exact ⟨hb1, by omega, hnm⟩
    · rintro ⟨hb1, hb2, hnm⟩
      exact ⟨⟨hb1, by omega⟩, hnm⟩
  constructor
  · intro f hf hne
    unfold calcularAssentosVazios
    rw [List.mem_filterMap]
    refine ⟨f, hf, ?_⟩
    simp only [if_neg hne]
  · intro e he
    unfold calcularAssentosVazios at he
    rw [List.mem_filterMap] at he
    obtain ⟨f, hf, hsome⟩ := he
    by_cases hv : assentosVaziosFila alocs f = []
    · simp only [if_pos hv] at hsome
      exact absurd hsome (by simp)
    · simp only [if_neg hv] at hsome
      have he' : ({ fila := f.nome,
                    assentos_vazios := assentosVaziosFila alocs f,
                    total_vazios := (assentosVaziosFila alocs f).length } :
          AssentosVaziosInfo) = e :=
        Option.some.inj hsome
      rw [← he']
      exact ⟨hv, rfl, f, hf, rfl, rfl, fun s => hmemvaz f s⟩

theorem claim9_witness :
    ({ fila := "1A", assentos_vazios := assentosVaziosFila [] ⟨"1A", 2, none⟩,
       total_vazios := (assentosVaziosFila [] ⟨"1A", 2, none⟩).length } : AssentosVaziosInfo) ∈
      calcularAssentosVazios [⟨"1A", 2, none⟩] [] :=
  (claim9_amended_somente_filas_com_vazios [⟨"1A", 2, none⟩] []).1
    ⟨"1A", 2, none⟩ (by decide) (by decide)
